import Mathlib

/-!
Verification of `nonlinear_solvers/solvers.py`: the Newton-Raphson and
bisection root solvers and the composite `solve`.

Modelling choices (shallow embedding):
* Python floats are modelled by `ℚ` (the claims are about control flow and
  exact comparisons, not rounding).
* A raised exception is modelled by `Except Err`, where `Err` covers the
  three exceptions the module can raise: `ConvergenceError`, `ValueError`
  (raised by `bisection` on an invalid bracket) and `ZeroDivisionError`
  (from `f(x)/df(x)` when the derivative is zero).
* Each `while` loop is bounded by its iteration cap: in Python the counter
  `current_its` counts up and the loop raises once `current_its > max_its`,
  so here the loops recurse structurally on the countdown
  `k = max_its + 1 - current_its`, raising when `k = 0` — the same test.
-/

/-- Exceptions raised by `solvers.py`: `ConvergenceError` (line 4),
`ValueError` for an invalid bracket (line 76), and Python's
`ZeroDivisionError` from evaluating `f(x)/df(x)` with a zero divisor. -/
inductive Err where
  | convergenceError
  | invalidBracket
  | zeroDivision
  deriving DecidableEq

/-- The arithmetic of one Newton update, `x - f(x)/df(x)` (solvers.py
lines 34 and 38). -/
def nStep (f df : ℚ → ℚ) (x : ℚ) : ℚ :=
  x - f x / df x

/-- One Newton update as executed by Python: evaluating `f(x)/df(x)` with
`df(x) = 0` raises `ZeroDivisionError`. -/
def newtonStep (f df : ℚ → ℚ) (x : ℚ) : Except Err ℚ :=
  if df x = 0 then .error .zeroDivision else .ok (nStep f df x)

/-- The `while abs(x - new_x) > eps` loop of `newton_raphson`
(solvers.py lines 36-41).  State: previous iterate `x`, current iterate
`new_x`, countdown `k = max_its + 1 - current_its` (where `current_its`
starts at 1).  The body steps first (line 38, which may raise
`ZeroDivisionError`) and checks the cap second (lines 39-40), exactly as
the source does. -/
def newtonLoop (f df : ℚ → ℚ) (eps : ℚ) (x new_x : ℚ) (k : ℕ) :
    Except Err ℚ :=
  if |x - new_x| > eps then
    match newtonStep f df new_x with
    | .error e => .error e
    | .ok nx =>
      match k with
      | 0 => .error .convergenceError
      | k' + 1 => newtonLoop f df eps new_x nx k'
  else .ok new_x

/-- `newton_raphson` (solvers.py lines 9-42): one unconditional update
(line 34), then the convergence loop entered with `current_its = 1`,
i.e. countdown `max_its`. -/
def newton_raphson (f df : ℚ → ℚ) (x_0 eps : ℚ) (max_its : ℕ) :
    Except Err ℚ :=
  match newtonStep f df x_0 with
  | .error e => .error e
  | .ok new_x => newtonLoop f df eps x_0 new_x max_its

/-- One bisection split (solvers.py lines 78-82): compute the midpoint
`new_x = (x_r + x_l)/2` (written out in place of the local variable), then
replace `x_l` by `new_x` when `f(new_x)*f(x_l) > 0` and `x_r` otherwise.
Returns the updated `(x_l, x_r, new_x)`. -/
def bisectUpdate (f : ℚ → ℚ) (x_l x_r : ℚ) : ℚ × ℚ × ℚ :=
  if f ((x_r + x_l) / 2) * f x_l > 0 then
    ((x_r + x_l) / 2, x_r, (x_r + x_l) / 2)
  else
    (x_l, (x_r + x_l) / 2, (x_r + x_l) / 2)

/-- The `while abs(f(new_x)) > eps` loop of `bisection` (solvers.py lines
74-85): bracket sign check first (lines 75-76), then the split (lines
78-82), then the cap check (lines 83-84).  Countdown
`k = max_its + 1 - current_its` with `current_its` starting at 0. -/
def bisectLoop (f : ℚ → ℚ) (eps : ℚ) (x_l x_r new_x : ℚ) (k : ℕ) :
    Except Err ℚ :=
  if |f new_x| > eps then
    if f x_l * f x_r > 0 then .error .invalidBracket
    else
      match k with
      | 0 => .error .convergenceError
      | k' + 1 =>
        bisectLoop f eps (bisectUpdate f x_l x_r).1
          (bisectUpdate f x_l x_r).2.1 (bisectUpdate f x_l x_r).2.2 k'
  else .ok new_x

/-- `bisection` (solvers.py lines 45-86): `x_l = x_0`, `x_r = x_1`,
`new_x = x_l`, `current_its = 0`, i.e. countdown `max_its + 1`. -/
def bisection (f : ℚ → ℚ) (x_0 x_1 eps : ℚ) (max_its : ℕ) :
    Except Err ℚ :=
  bisectLoop f eps x_0 x_1 x_0 (max_its + 1)

/-- `solve` (solvers.py lines 89-123): try Newton-Raphson, fall back to
bisection on `ConvergenceError` (lines 120-123).  On Newton success the
root is discarded and Python falls off the end of the function, returning
`None` — modelled by `Except Err (Option ℚ)` with `.ok none`.  Any other
exception propagates unmodified. -/
def solve (f df : ℚ → ℚ) (x_0 x_1 eps : ℚ) (max_its_n max_its_b : ℕ) :
    Except Err (Option ℚ) :=
  match newton_raphson f df x_0 eps max_its_n with
  | .ok _ => .ok none
  | .error .convergenceError => (bisection f x_0 x_1 eps max_its_b).map some
  | .error e => .error e

/-- `newtonLoop` instrumented with the number of executed loop bodies.
Every body execution — including one that raises — performs exactly one
evaluation of `f` and one of `df` (line 38; on `ZeroDivisionError` both
calls have already returned when the division raises). -/
def newtonLoopI (f df : ℚ → ℚ) (eps : ℚ) (x new_x : ℚ) (k : ℕ) :
    Except Err ℚ × ℕ :=
  if |x - new_x| > eps then
    match newtonStep f df new_x with
    | .error e => (.error e, 1)
    | .ok nx =>
      match k with
      | 0 => (.error .convergenceError, 1)
      | k' + 1 =>
        ((newtonLoopI f df eps new_x nx k').1,
         (newtonLoopI f df eps new_x nx k').2 + 1)
  else (.ok new_x, 0)

/-- `newton_raphson` instrumented: the result, the number of evaluations
of `f` (equal to that of `df`: line 34 contributes one and each loop body
contributes one), and the number of executed loop bodies. -/
def newton_raphsonI (f df : ℚ → ℚ) (x_0 eps : ℚ) (max_its : ℕ) :
    Except Err ℚ × ℕ × ℕ :=
  match newtonStep f df x_0 with
  | .error e => (.error e, 1, 0)
  | .ok new_x =>
    ((newtonLoopI f df eps x_0 new_x max_its).1,
     (newtonLoopI f df eps x_0 new_x max_its).2 + 1,
     (newtonLoopI f df eps x_0 new_x max_its).2)

/-- `bisectLoop` instrumented with the number of executed loop bodies
(a body that raises also counts). -/
def bisectLoopI (f : ℚ → ℚ) (eps : ℚ) (x_l x_r new_x : ℚ) (k : ℕ) :
    Except Err ℚ × ℕ :=
  if |f new_x| > eps then
    if f x_l * f x_r > 0 then (.error .invalidBracket, 1)
    else
      match k with
      | 0 => (.error .convergenceError, 1)
      | k' + 1 =>
        ((bisectLoopI f eps (bisectUpdate f x_l x_r).1
            (bisectUpdate f x_l x_r).2.1 (bisectUpdate f x_l x_r).2.2 k').1,
         (bisectLoopI f eps (bisectUpdate f x_l x_r).1
            (bisectUpdate f x_l x_r).2.1 (bisectUpdate f x_l x_r).2.2 k').2 + 1)
  else (.ok new_x, 0)

/-- `bisection` instrumented with the number of executed loop bodies. -/
def bisectionI (f : ℚ → ℚ) (x_0 x_1 eps : ℚ) (max_its : ℕ) :
    Except Err ℚ × ℕ :=
  bisectLoopI f eps x_0 x_1 x_0 (max_its + 1)

/-- The sequence of Newton iterates from `x_0` (the mathematical
iteration, ignoring the zero-derivative exception). -/
def nIter (f df : ℚ → ℚ) (x_0 : ℚ) (n : ℕ) : ℚ :=
  (nStep f df)^[n] x_0

/-- One transition of the bisection bracket state `(x_l, x_r, new_x)`. -/
def bStep (f : ℚ → ℚ) (s : ℚ × ℚ × ℚ) : ℚ × ℚ × ℚ :=
  bisectUpdate f s.1 s.2.1

/-- The sequence of bisection bracket states reached from the initial
state `(x_0, x_1, x_0)` after `n` completed splits. -/
def bState (f : ℚ → ℚ) (x_0 x_1 : ℚ) (n : ℕ) : ℚ × ℚ × ℚ :=
  (bStep f)^[n] (x_0, x_1, x_0)

/-! Execution lemmas: one conditional rewrite per control-flow branch of
each loop, used both for the general proofs and to run the solvers on
concrete inputs. -/

theorem newtonLoop_stop (f df : ℚ → ℚ) (eps x nx : ℚ) (k : ℕ)
    (h : ¬ |x - nx| > eps) : newtonLoop f df eps x nx k = .ok nx := by
  unfold newtonLoop
  simp [h]

theorem newtonLoop_cont (f df : ℚ → ℚ) (eps x nx : ℚ) (k : ℕ)
    (h : |x - nx| > eps) (hdf : df nx ≠ 0) :
    newtonLoop f df eps x nx (k + 1) =
      newtonLoop f df eps nx (nStep f df nx) k := by
  conv_lhs => rw [newtonLoop]
  simp only [if_pos h, newtonStep, if_neg hdf]

theorem newtonLoop_cap (f df : ℚ → ℚ) (eps x nx : ℚ)
    (h : |x - nx| > eps) (hdf : df nx ≠ 0) :
    newtonLoop f df eps x nx 0 = .error .convergenceError := by
  unfold newtonLoop
  simp [h, newtonStep, hdf]

theorem newtonLoop_zdiv (f df : ℚ → ℚ) (eps x nx : ℚ) (k : ℕ)
    (h : |x - nx| > eps) (hdf : df nx = 0) :
    newtonLoop f df eps x nx k = .error .zeroDivision := by
  unfold newtonLoop
  simp [h, newtonStep, hdf]

theorem bisectLoop_stop (f : ℚ → ℚ) (eps x_l x_r nx : ℚ) (k : ℕ)
    (h : ¬ |f nx| > eps) : bisectLoop f eps x_l x_r nx k = .ok nx := by
  unfold bisectLoop
  simp [h]

theorem bisectLoop_invalid (f : ℚ → ℚ) (eps x_l x_r nx : ℚ) (k : ℕ)
    (h : |f nx| > eps) (hbr : f x_l * f x_r > 0) :
    bisectLoop f eps x_l x_r nx k = .error .invalidBracket := by
  unfold bisectLoop
  simp [h, hbr]

theorem bisectLoop_cont (f : ℚ → ℚ) (eps x_l x_r nx : ℚ) (k : ℕ)
    (h : |f nx| > eps) (hbr : ¬ f x_l * f x_r > 0) :
    bisectLoop f eps x_l x_r nx (k + 1) =
      bisectLoop f eps (bisectUpdate f x_l x_r).1
        (bisectUpdate f x_l x_r).2.1 (bisectUpdate f x_l x_r).2.2 k := by
  conv_lhs => rw [bisectLoop]
  simp only [if_pos h, if_neg hbr]

theorem bisectLoop_cap (f : ℚ → ℚ) (eps x_l x_r nx : ℚ)
    (h : |f nx| > eps) (hbr : ¬ f x_l * f x_r > 0) :
    bisectLoop f eps x_l x_r nx 0 = .error .convergenceError := by
  unfold bisectLoop
  simp [h, hbr]

/-! Instrumentation lemmas: the instrumented solvers compute the same
result as the plain ones, and their body counters are bounded by the
countdown. -/

theorem newtonLoopI_fst (f df : ℚ → ℚ) (eps : ℚ) :
    ∀ (k : ℕ) (x nx : ℚ),
      (newtonLoopI f df eps x nx k).1 = newtonLoop f df eps x nx k := by
  intro k
  induction k with
  | zero =>
    intro x nx
    unfold newtonLoopI newtonLoop
    by_cases h : |x - nx| > eps
    · simp only [if_pos h]
      cases newtonStep f df nx <;> rfl
    · simp only [if_neg h]
  | succ k ih =>
    intro x nx
    unfold newtonLoopI newtonLoop
    by_cases h : |x - nx| > eps
    · simp only [if_pos h]
      cases newtonStep f df nx with
      | error e => rfl
      | ok v => exact ih nx v
    · simp only [if_neg h]

theorem newtonLoopI_le (f df : ℚ → ℚ) (eps : ℚ) :
    ∀ (k : ℕ) (x nx : ℚ), (newtonLoopI f df eps x nx k).2 ≤ k + 1 := by
  intro k
  induction k with
  | zero =>
    intro x nx
    unfold newtonLoopI
    by_cases h : |x - nx| > eps
    · simp only [if_pos h]
      cases newtonStep f df nx <;> simp
    · simp [if_neg h]
  | succ k ih =>
    intro x nx
    unfold newtonLoopI
    by_cases h : |x - nx| > eps
    · simp only [if_pos h]
      cases newtonStep f df nx with
      | error e => simp
      | ok v =>
        have := ih nx v
        simp only []
        omega
    · simp [if_neg h]

theorem newtonLoopI_pos (f df : ℚ → ℚ) (eps x nx : ℚ) (k : ℕ)
    (h : |x - nx| > eps) : 1 ≤ (newtonLoopI f df eps x nx k).2 := by
  unfold newtonLoopI
  simp only [if_pos h]
  cases newtonStep f df nx with
  | error e => simp
  | ok v =>
    cases k with
    | zero => simp
    | succ k => simp

theorem bisectLoopI_fst (f : ℚ → ℚ) (eps : ℚ) :
    ∀ (k : ℕ) (x_l x_r nx : ℚ),
      (bisectLoopI f eps x_l x_r nx k).1 = bisectLoop f eps x_l x_r nx k := by
  intro k
  induction k with
  | zero =>
    intro xl xr nx
    unfold bisectLoopI bisectLoop
    by_cases h : |f nx| > eps
    · by_cases hbr : f xl * f xr > 0 <;> simp [h, hbr]
    · simp only [if_neg h]
  | succ k ih =>
    intro xl xr nx
    unfold bisectLoopI bisectLoop
    by_cases h : |f nx| > eps
    · by_cases hbr : f xl * f xr > 0
      · simp [h, hbr]
      · simp only [if_pos h, if_neg hbr]
        exact ih _ _ _
    · simp only [if_neg h]

theorem bisectLoopI_le (f : ℚ → ℚ) (eps : ℚ) :
    ∀ (k : ℕ) (x_l x_r nx : ℚ), (bisectLoopI f eps x_l x_r nx k).2 ≤ k + 1 := by
  intro k
  induction k with
  | zero =>
    intro xl xr nx
    unfold bisectLoopI
    by_cases h : |f nx| > eps
    · by_cases hbr : f xl * f xr > 0 <;> simp [h, hbr]
    · simp [if_neg h]
  | succ k ih =>
    intro xl xr nx
    unfold bisectLoopI
    by_cases h : |f nx| > eps
    · by_cases hbr : f xl * f xr > 0
      · simp [h, hbr]
      · simp only [if_pos h, if_neg hbr]
        have := ih (bisectUpdate f xl xr).1 (bisectUpdate f xl xr).2.1
          (bisectUpdate f xl xr).2.2
        omega
    · simp [if_neg h]

/-! Core lemmas about the loops. -/

/-- Whatever path the bisection loop takes, a normal return value has
function value within tolerance (the loop guard is false on exit). -/
theorem bisectLoop_ok_abs (f : ℚ → ℚ) (eps : ℚ) :
    ∀ (k : ℕ) (x_l x_r nx r : ℚ),
      bisectLoop f eps x_l x_r nx k = .ok r → |f r| ≤ eps := by
  intro k
  induction k with
  | zero =>
    intro xl xr nx r h
    unfold bisectLoop at h
    by_cases hc : |f nx| > eps
    · by_cases hbr : f xl * f xr > 0 <;> simp [hc, hbr] at h
    · simp only [if_neg hc, Except.ok.injEq] at h
      rw [← h]
      exact not_lt.mp hc
  | succ k ih =>
    intro xl xr nx r h
    unfold bisectLoop at h
    by_cases hc : |f nx| > eps
    · by_cases hbr : f xl * f xr > 0
      · simp [hc, hbr] at h
      · simp only [if_pos hc, if_neg hbr] at h
        exact ih _ _ _ _ h
    · simp only [if_neg hc, Except.ok.injEq] at h
      rw [← h]
      exact not_lt.mp hc

/-- A normal return from the Newton loop is the last computed update:
it equals `xp - f(xp)/df(xp)` for the previous iterate `xp`, and the step
from `xp` is within tolerance. -/
theorem newtonLoop_ok_spec (f df : ℚ → ℚ) (eps : ℚ) :
    ∀ (k : ℕ) (x nx r : ℚ),
      df x ≠ 0 → nx = nStep f df x →
      newtonLoop f df eps x nx k = .ok r →
      ∃ xp, df xp ≠ 0 ∧ r = xp - f xp / df xp ∧ |xp - r| ≤ eps := by
  intro k
  induction k with
  | zero =>
    intro x nx r hdf hnx h
    unfold newtonLoop at h
    by_cases hc : |x - nx| > eps
    · simp only [if_pos hc] at h
      cases hz : newtonStep f df nx <;> simp [hz] at h
    · simp only [if_neg hc, Except.ok.injEq] at h
      exact ⟨x, hdf, by rw [← h, hnx, nStep], by rw [← h]; exact not_lt.mp hc⟩
  | succ k ih =>
    intro x nx r hdf hnx h
    unfold newtonLoop at h
    by_cases hc : |x - nx| > eps
    · simp only [if_pos hc] at h
      by_cases hz : df nx = 0
      · simp [newtonStep, hz] at h
      · simp only [newtonStep, if_neg hz] at h
        exact ih nx _ r hz rfl h
    · simp only [if_neg hc, Except.ok.injEq] at h
      exact ⟨x, hdf, by rw [← h, hnx, nStep], by rw [← h]; exact not_lt.mp hc⟩

/-- One bisection split keeps the bracket: if the function changes sign
(or vanishes) across `[x_l, x_r]`, it does across the updated bounds. -/
theorem bisectUpdate_bracket (f : ℚ → ℚ) (x_l x_r : ℚ)
    (h : f x_l * f x_r ≤ 0) :
    f (bisectUpdate f x_l x_r).1 * f (bisectUpdate f x_l x_r).2.1 ≤ 0 := by
  unfold bisectUpdate
  by_cases hs : f ((x_r + x_l) / 2) * f x_l > 0
  · simp only [if_pos hs]
    by_contra hg
    push_neg at hg
    have h1 : 0 < (f ((x_r + x_l) / 2) * f x_l) *
        (f ((x_r + x_l) / 2) * f x_r) := mul_pos hs hg
    have h2 : (f ((x_r + x_l) / 2) * f x_l) * (f ((x_r + x_l) / 2) * f x_r)
        = (f ((x_r + x_l) / 2) * f ((x_r + x_l) / 2)) * (f x_l * f x_r) := by
      ring
    have h3 : (f ((x_r + x_l) / 2) * f ((x_r + x_l) / 2)) *
        (f x_l * f x_r) ≤ 0 :=
      mul_nonpos_of_nonneg_of_nonpos (mul_self_nonneg _) h
    rw [h2] at h1
    linarith
  · simp only [if_neg hs]
    push_neg at hs
    calc f x_l * f ((x_r + x_l) / 2) = f ((x_r + x_l) / 2) * f x_l := by ring
      _ ≤ 0 := hs

theorem nIter_zero (f df : ℚ → ℚ) (x : ℚ) : nIter f df x 0 = x := rfl

theorem nIter_shift (f df : ℚ → ℚ) (x : ℚ) (n : ℕ) :
    nIter f df x (n + 1) = nIter f df (nStep f df x) n := by
  unfold nIter
  rw [Function.iterate_succ_apply]

/-- If every step up to the cap stays above tolerance (and no derivative
vanishes on the way), the Newton loop runs out of its countdown and
raises `ConvergenceError`. -/
theorem newtonLoop_conv (f df : ℚ → ℚ) (eps : ℚ) :
    ∀ (k : ℕ) (x : ℚ),
      (∀ j, j ≤ k → |nIter f df x j - nIter f df x (j + 1)| > eps) →
      (∀ j, j ≤ k + 1 → df (nIter f df x j) ≠ 0) →
      newtonLoop f df eps x (nStep f df x) k = .error .convergenceError := by
  intro k
  induction k with
  | zero =>
    intro x hstep hdf
    have h0 : |x - nStep f df x| > eps := by
      have := hstep 0 le_rfl
      rwa [nIter_zero, nIter_shift, nIter_zero] at this
    have h1 : df (nStep f df x) ≠ 0 := by
      have := hdf 1 (by omega)
      rwa [nIter_shift, nIter_zero] at this
    exact newtonLoop_cap f df eps x (nStep f df x) h0 h1
  | succ k ih =>
    intro x hstep hdf
    have h0 : |x - nStep f df x| > eps := by
      have := hstep 0 (by omega)
      rwa [nIter_zero, nIter_shift, nIter_zero] at this
    have h1 : df (nStep f df x) ≠ 0 := by
      have := hdf 1 (by omega)
      rwa [nIter_shift, nIter_zero] at this
    rw [newtonLoop_cont f df eps x (nStep f df x) k h0 h1]
    refine ih (nStep f df x) (fun j hj => ?_) (fun j hj => ?_)
    · have := hstep (j + 1) (by omega)
      rwa [nIter_shift, nIter_shift] at this
    · have := hdf (j + 1) (by omega)
      rwa [nIter_shift] at this

/-- If the initial bracket is valid and every midpoint up to the cap stays
above tolerance, the bisection loop runs out of its countdown and raises
`ConvergenceError`. -/
theorem bisectLoop_conv (f : ℚ → ℚ) (eps : ℚ) :
    ∀ (k : ℕ) (s : ℚ × ℚ × ℚ),
      f s.1 * f s.2.1 ≤ 0 →
      (∀ j, j ≤ k → |f ((bStep f)^[j] s).2.2| > eps) →
      bisectLoop f eps s.1 s.2.1 s.2.2 k = .error .convergenceError := by
  intro k
  induction k with
  | zero =>
    intro s hbr habs
    have h0 : |f s.2.2| > eps := by
      have := habs 0 le_rfl
      rwa [Function.iterate_zero_apply] at this
    exact bisectLoop_cap f eps s.1 s.2.1 s.2.2 h0 (not_lt.mpr hbr)
  | succ k ih =>
    intro s hbr habs
    have h0 : |f s.2.2| > eps := by
      have := habs 0 (by omega)
      rwa [Function.iterate_zero_apply] at this
    rw [bisectLoop_cont f eps s.1 s.2.1 s.2.2 k h0 (not_lt.mpr hbr)]
    have hbr' : f (bStep f s).1 * f (bStep f s).2.1 ≤ 0 :=
      bisectUpdate_bracket f s.1 s.2.1 hbr
    have := ih (bStep f s) hbr' (fun j hj => by
      have := habs (j + 1) (by omega)
      rwa [Function.iterate_succ_apply] at this)
    exact this

/-- Concrete run shared by several witnesses: Newton-Raphson on
`f(x) = x` from `x_0 = 1` converges to the root `0`. -/
theorem newton_id_eval :
    newton_raphson (fun x : ℚ => x) (fun _ => 1) 1 (1/100000) 20 = .ok 0 := by
  have hs : newtonStep (fun x : ℚ => x) (fun _ => 1) 1 = .ok 0 := by
    norm_num [newtonStep, nStep]
  rw [newton_raphson, hs]
  show newtonLoop (fun x : ℚ => x) (fun _ => 1) (1/100000) 1 0 20 = .ok 0
  rw [show (20:ℕ) = 19 + 1 by norm_num]
  rw [newtonLoop_cont _ _ _ _ _ _ (by norm_num) (by norm_num)]
  have h0 : nStep (fun x : ℚ => x) (fun _ => 1) 0 = 0 := by
    norm_num [nStep]
  rw [h0]
  exact newtonLoop_stop _ _ _ _ _ _ (by norm_num)

/-- Concrete run shared by several witnesses: Newton-Raphson on
`f(x) = x + 5` from `x_0 = 1` with `max_its = 0` exceeds its cap. -/
theorem newton_affine_cap_eval :
    newton_raphson (fun x : ℚ => x + 5) (fun _ => 1) 1 (1/100000) 0
      = .error .convergenceError := by
  have hs : newtonStep (fun x : ℚ => x + 5) (fun _ => 1) 1 = .ok (-5) := by
    norm_num [newtonStep, nStep]
  rw [newton_raphson, hs]
  exact newtonLoop_cap _ _ _ _ _ (by norm_num) (by norm_num)

/-- Claim C1: in `solve`, a `ConvergenceError` from the inner
`newton_raphson` call makes `solve` return exactly the result of
`bisection f x_0 x_1 eps max_its_b`, while a normal `newton_raphson`
return makes `solve` discard the root and produce no value (`None`). -/
theorem solve_fallback_spec (f df : ℚ → ℚ) (x_0 x_1 eps : ℚ)
    (mn mb : ℕ) :
    (newton_raphson f df x_0 eps mn = .error .convergenceError →
      solve f df x_0 x_1 eps mn mb = (bisection f x_0 x_1 eps mb).map some) ∧
    (∀ r, newton_raphson f df x_0 eps mn = .ok r →
      solve f df x_0 x_1 eps mn mb = .ok none) := by
  constructor
  · intro h
    simp [solve, h]
  · intro r h
    simp [solve, h]

theorem solve_fallback_spec_witness :
    solve (fun x : ℚ => x + 5) (fun _ => 1) 1 2 (1/100000) 0 20 =
      (bisection (fun x : ℚ => x + 5) 1 2 (1/100000) 20).map some ∧
    solve (fun x : ℚ => x) (fun _ => 1) 1 2 (1/100000) 20 20 = .ok none := by
  constructor
  · exact (solve_fallback_spec (fun x : ℚ => x + 5) (fun _ => 1) 1 2
      (1/100000) 0 20).1 newton_affine_cap_eval
  · exact (solve_fallback_spec (fun x : ℚ => x) (fun _ => 1) 1 2
      (1/100000) 20 20).2 0 newton_id_eval

/-- Claim C2: whenever `bisection f x_0 x_1 eps max_its` returns normally,
the returned value `x` satisfies `|f x| ≤ eps`.  (Proved for every `f`
and every pair of endpoints, hence in particular for every continuous `f`
with `f x_0` and `f x_1` of opposite sign.) -/
theorem bisection_result_within_tol (f : ℚ → ℚ) (x_0 x_1 eps x : ℚ)
    (m : ℕ) (h : bisection f x_0 x_1 eps m = .ok x) : |f x| ≤ eps :=
  bisectLoop_ok_abs f eps (m + 1) x_0 x_1 x_0 x h

theorem bisection_result_within_tol_witness :
    bisection (fun x : ℚ => x) (-1) 1 (1/100000) 20 = .ok 0 ∧
    |(0:ℚ)| ≤ 1/100000 := by
  have hb : bisection (fun x : ℚ => x) (-1) 1 (1/100000) 20 = .ok 0 := by
    rw [bisection]
    rw [bisectLoop_cont _ _ _ _ _ _ (by norm_num) (by norm_num)]
    have hu : bisectUpdate (fun x : ℚ => x) (-1) 1 = (-1, 0, 0) := by
      norm_num [bisectUpdate]
    rw [hu]
    exact bisectLoop_stop _ _ _ _ _ _ (by norm_num)
  exact ⟨hb, bisection_result_within_tol (fun x : ℚ => x) (-1) 1
    (1/100000) 0 20 hb⟩

/-- Claim C3: a normal return of `newton_raphson` is the last computed
`new_x = x_prev - f(x_prev)/df(x_prev)`, and it satisfies
`|x_prev - new_x| ≤ eps` for the previous iterate `x_prev` — the
convergence criterion is on the step size, not the function value. -/
theorem newton_result_step_tol (f df : ℚ → ℚ) (x_0 eps r : ℚ) (m : ℕ)
    (h : newton_raphson f df x_0 eps m = .ok r) :
    ∃ x_prev, df x_prev ≠ 0 ∧ r = x_prev - f x_prev / df x_prev ∧
      |x_prev - r| ≤ eps := by
  unfold newton_raphson at h
  by_cases hz : df x_0 = 0
  · simp [newtonStep, hz] at h
  · simp only [newtonStep, if_neg hz] at h
    exact newtonLoop_ok_spec f df eps m x_0 _ r hz rfl h

theorem newton_result_step_tol_witness :
    newton_raphson (fun x : ℚ => x) (fun _ => 1) 1 (1/100000) 20 = .ok 0 ∧
    ∃ x_prev, ((fun _ : ℚ => (1:ℚ)) x_prev ≠ 0) ∧
      (0:ℚ) = x_prev - (fun x : ℚ => x) x_prev / (fun _ : ℚ => (1:ℚ)) x_prev ∧
      |x_prev - 0| ≤ 1/100000 :=
  ⟨newton_id_eval, newton_result_step_tol (fun x : ℚ => x) (fun _ => 1) 1
    (1/100000) 0 20 newton_id_eval⟩

/-- Claim C4 is false as stated: with `f(x) = x`, `x_l = -1`, `x_r = 1`
the midpoint is `(1 + -1)/2 = 0` and `f(0) = 0` (a tie), yet the update
keeps `x_l = -1` and replaces the right bound by the midpoint — a tie is
not treated as matching the left side. -/
theorem bisect_tie_replaces_right_cex :
    (fun x : ℚ => x) ((1 + -1) / 2) = 0 ∧
    bisectUpdate (fun x : ℚ => x) (-1) 1 = (-1, 0, 0) ∧
    (bisectUpdate (fun x : ℚ => x) (-1) 1).1 ≠ (1 + -1) / 2 := by
  refine ⟨by norm_num, ?_, ?_⟩
  · norm_num [bisectUpdate]
  · norm_num [bisectUpdate]

/-- Claim C4 (amended): after computing the midpoint
`new_x = (x_r + x_l)/2`, the bound `x_l` is replaced by `new_x` exactly
when `f(new_x) * f(x_l) > 0`, and `x_r` is replaced otherwise; in
particular a tie `f(new_x) = 0` makes that product zero, so it is treated
as matching the right side: `x_r`, not `x_l`, is replaced by `new_x`. -/
theorem bisect_update_sign_rule (f : ℚ → ℚ) (x_l x_r : ℚ) :
    (f ((x_r + x_l) / 2) * f x_l > 0 →
      bisectUpdate f x_l x_r = ((x_r + x_l) / 2, x_r, (x_r + x_l) / 2)) ∧
    (¬ f ((x_r + x_l) / 2) * f x_l > 0 →
      bisectUpdate f x_l x_r = (x_l, (x_r + x_l) / 2, (x_r + x_l) / 2)) ∧
    (f ((x_r + x_l) / 2) = 0 →
      bisectUpdate f x_l x_r = (x_l, (x_r + x_l) / 2, (x_r + x_l) / 2)) := by
  refine ⟨fun h => ?_, fun h => ?_, fun h => ?_⟩
  · unfold bisectUpdate
    rw [if_pos h]
  · unfold bisectUpdate
    rw [if_neg h]
  · unfold bisectUpdate
    rw [if_neg (by rw [h]; norm_num)]

theorem bisect_update_sign_rule_witness :
    bisectUpdate (fun x : ℚ => x) (-1) 1 = (-1, (1 + -1) / 2, (1 + -1) / 2) :=
  (bisect_update_sign_rule (fun x : ℚ => x) (-1) 1).2.2 (by norm_num)

/-- Claim C5: in any bisection iteration — any bracket state, any
remaining countdown — a failed sign check `f(x_l)*f(x_r) > 0` raises
`InvalidBracket` (Python's `ValueError`); and `solve` does not catch it:
when the Newton-Raphson attempt fails over to bisection and bisection
raises `InvalidBracket`, `solve` propagates it to the caller. -/
theorem bisection_invalid_bracket_raise (f df : ℚ → ℚ)
    (eps x_l x_r nx : ℚ) (k : ℕ) :
    (|f nx| > eps → f x_l * f x_r > 0 →
      bisectLoop f eps x_l x_r nx k = .error .invalidBracket) ∧
    (∀ x_0 x_1 mn mb,
      newton_raphson f df x_0 eps mn = .error .convergenceError →
      bisection f x_0 x_1 eps mb = .error .invalidBracket →
      solve f df x_0 x_1 eps mn mb = .error .invalidBracket) := by
  constructor
  · exact fun h hbr => bisectLoop_invalid f eps x_l x_r nx k h hbr
  · intro x_0 x_1 mn mb hn hb
    simp [solve, hn, hb, Except.map]

theorem bisection_invalid_bracket_raise_witness :
    bisectLoop (fun x : ℚ => x + 5) (1/100000) 1 2 1 21
      = .error .invalidBracket ∧
    solve (fun x : ℚ => x + 5) (fun _ => 1) 1 2 (1/100000) 0 20
      = .error .invalidBracket := by
  have hb : bisection (fun x : ℚ => x + 5) 1 2 (1/100000) 20
      = .error .invalidBracket := by
    rw [bisection]
    exact bisectLoop_invalid _ _ _ _ _ _ (by norm_num) (by norm_num)
  exact ⟨(bisection_invalid_bracket_raise (fun x : ℚ => x + 5) (fun _ => 1)
      (1/100000) 1 2 1 21).1 (by norm_num) (by norm_num),
    (bisection_invalid_bracket_raise (fun x : ℚ => x + 5) (fun _ => 1)
      (1/100000) 1 2 1 21).2 1 2 0 20 newton_affine_cap_eval hb⟩

/-- Claim C6: under the initial sign-change precondition
`f(x_0) * f(x_1) ≤ 0`, after every completed split the bracket is still
valid: `f(x_l) * f(x_r) ≤ 0` — the bounds have opposite signs or one of
them is a root — so the root remains bracketed throughout. -/
theorem bisection_bracket_invariant (f : ℚ → ℚ) (x_0 x_1 : ℚ)
    (h : f x_0 * f x_1 ≤ 0) (n : ℕ) :
    f (bState f x_0 x_1 n).1 * f (bState f x_0 x_1 n).2.1 ≤ 0 := by
  induction n with
  | zero => exact h
  | succ n ih =>
    have hs : bState f x_0 x_1 (n + 1) = bStep f (bState f x_0 x_1 n) := by
      unfold bState
      rw [Function.iterate_succ_apply']
    rw [hs]
    exact bisectUpdate_bracket f _ _ ih

theorem bisection_bracket_invariant_witness :
    (fun x : ℚ => x) (bState (fun x : ℚ => x) (-1) 2 1).1 *
      (fun x : ℚ => x) (bState (fun x : ℚ => x) (-1) 2 1).2.1 ≤ 0 :=
  bisection_bracket_invariant (fun x : ℚ => x) (-1) 2 (by norm_num) 1

/-- Claim C7: an unreasonably low `max_its` makes both solvers raise
`ConvergenceError`: if no Newton step up to the cap meets the step-size
tolerance (and no derivative vanishes on the way), `newton_raphson`
raises; if the initial bracket is valid and no midpoint up to the cap
meets the function-value tolerance, `bisection` raises.  Instantiating
`m = 0` gives the `max_its = 0` case with the tolerance not met by the
early iterates. -/
theorem solvers_convergence_failure (f df : ℚ → ℚ) (x_0 x_1 eps : ℚ)
    (m : ℕ) :
    ((∀ j, j ≤ m → |nIter f df x_0 j - nIter f df x_0 (j + 1)| > eps) →
     (∀ j, j ≤ m + 1 → df (nIter f df x_0 j) ≠ 0) →
      newton_raphson f df x_0 eps m = .error .convergenceError) ∧
    (f x_0 * f x_1 ≤ 0 →
     (∀ j, j ≤ m + 1 → |f (bState f x_0 x_1 j).2.2| > eps) →
      bisection f x_0 x_1 eps m = .error .convergenceError) := by
  constructor
  · intro hstep hdf
    have hz : df x_0 ≠ 0 := by
      have := hdf 0 (by omega)
      rwa [nIter_zero] at this
    unfold newton_raphson
    simp only [newtonStep, if_neg hz]
    exact newtonLoop_conv f df eps m x_0 hstep hdf
  · intro hbr habs
    unfold bisection
    exact bisectLoop_conv f eps (m + 1) (x_0, x_1, x_0) hbr habs

theorem solvers_convergence_failure_witness :
    newton_raphson (fun x : ℚ => x + 5) (fun _ => 1) 1 (1/100000) 0
      = .error .convergenceError ∧
    bisection (fun x : ℚ => x) (-1) 2 (1/100000) 0
      = .error .convergenceError := by
  constructor
  · refine (solvers_convergence_failure (fun x : ℚ => x + 5) (fun _ => 1)
      1 0 (1/100000) 0).1 (fun j hj => ?_) (fun j hj => ?_)
    · interval_cases j
      norm_num [nIter, nStep, Function.iterate_one, Function.iterate_zero_apply]
    · norm_num
  · refine (solvers_convergence_failure (fun x : ℚ => x) (fun _ => 1)
      (-1) 2 (1/100000) 0).2 (by norm_num) (fun j hj => ?_)
    interval_cases j
    · norm_num [bState, bStep, bisectUpdate, Function.iterate_zero_apply]
    · norm_num [bState, bStep, bisectUpdate, Function.iterate_one]
      rw [abs_of_pos (by norm_num : (0:ℚ) < 1/2)]
      norm_num

/-- Claim C8 is false as stated: with `f = 0`, `df = 1`, `x_0 = 0` the
first (unconditional) update already meets the step tolerance, the loop
body never runs, and the call evaluates `f` and `df` exactly once each —
not at least twice. -/
theorem newton_single_eval_cex :
    newton_raphsonI (fun _ : ℚ => 0) (fun _ => 1) 0 (1/100000) 20
      = (.ok 0, 1, 0) ∧
    ¬ 2 ≤ (newton_raphsonI (fun _ : ℚ => 0) (fun _ => 1) 0
      (1/100000) 20).2.1 := by
  have hs : newtonStep (fun _ : ℚ => 0) (fun _ => 1) 0 = .ok 0 := by
    norm_num [newtonStep, nStep]
  have hl : newtonLoopI (fun _ : ℚ => 0) (fun _ => 1) (1/100000) 0 0 20
      = (.ok 0, 0) := by
    unfold newtonLoopI
    norm_num
  have hmain : newton_raphsonI (fun _ : ℚ => 0) (fun _ => 1) 0
      (1/100000) 20 = (.ok 0, 1, 0) := by
    simp only [newton_raphsonI, hs]
    rw [hl]
  exact ⟨hmain, by rw [hmain]; norm_num⟩

/-- Claim C8 (amended): `newton_raphson` performs one unconditional
update before any convergence or iteration-count check, so on every call
it evaluates `f` and `df` at least once each; whenever the first step is
within tolerance it converges immediately — it returns that first update
(even with `max_its = 0`) and evaluates `f` and `df` exactly once each —
and it evaluates `f` and `df` at least twice each exactly when the first
step exceeds the tolerance. -/
theorem newton_unconditional_first_step (f df : ℚ → ℚ) (x_0 eps : ℚ)
    (m : ℕ) :
    1 ≤ (newton_raphsonI f df x_0 eps m).2.1 ∧
    (df x_0 ≠ 0 → |f x_0 / df x_0| ≤ eps →
      newton_raphson f df x_0 eps m = .ok (x_0 - f x_0 / df x_0) ∧
      (newton_raphsonI f df x_0 eps m).2.1 = 1) ∧
    (df x_0 ≠ 0 →
      (2 ≤ (newton_raphsonI f df x_0 eps m).2.1 ↔
        |f x_0 / df x_0| > eps)) := by
  have hone : ∀ hz : df x_0 ≠ 0, |f x_0 / df x_0| ≤ eps →
      (newton_raphsonI f df x_0 eps m).2.1 = 1 := by
    intro hz htol
    unfold newton_raphsonI
    simp only [newtonStep, if_neg hz]
    have hstop : ¬ |x_0 - nStep f df x_0| > eps := by
      rw [nStep, sub_sub_cancel]
      exact not_lt.mpr htol
    have hzero : (newtonLoopI f df eps x_0 (nStep f df x_0) m).2 = 0 := by
      unfold newtonLoopI
      simp [hstop]
    show (newtonLoopI f df eps x_0 (nStep f df x_0) m).2 + 1 = 1
    omega
  have htwo : ∀ hz : df x_0 ≠ 0, |f x_0 / df x_0| > eps →
      2 ≤ (newton_raphsonI f df x_0 eps m).2.1 := by
    intro hz htol
    unfold newton_raphsonI
    simp only [newtonStep, if_neg hz]
    have h1 : |x_0 - nStep f df x_0| > eps := by
      rw [nStep, sub_sub_cancel]
      exact htol
    have h2 := newtonLoopI_pos f df eps x_0 (nStep f df x_0) m h1
    show 2 ≤ (newtonLoopI f df eps x_0 (nStep f df x_0) m).2 + 1
    omega
  refine ⟨?_, fun hz htol => ⟨?_, hone hz htol⟩, fun hz => ⟨fun h2 => ?_, htwo hz⟩⟩
  · unfold newton_raphsonI
    cases hs : newtonStep f df x_0 <;> simp [hs]
  · unfold newton_raphson
    simp only [newtonStep, if_neg hz]
    have hstop : ¬ |x_0 - nStep f df x_0| > eps := by
      rw [nStep, sub_sub_cancel]
      exact not_lt.mpr htol
    exact newtonLoop_stop f df eps x_0 _ m hstop
  · by_contra hgt
    have := hone hz (not_lt.mp hgt)
    omega

theorem newton_unconditional_first_step_witness :
    newton_raphson (fun _ : ℚ => 0) (fun _ => 1) 5 (1/100000) 0
      = .ok (5 - 0 / 1) ∧
    (newton_raphsonI (fun _ : ℚ => 0) (fun _ => 1) 5 (1/100000) 0).2.1 = 1 ∧
    2 ≤ (newton_raphsonI (fun x : ℚ => x) (fun _ => 1) 1
      (1/100000) 20).2.1 := by
  refine ⟨?_, ?_, ?_⟩
  · exact ((newton_unconditional_first_step (fun _ : ℚ => 0) (fun _ => 1) 5
      (1/100000) 0).2.1 (by norm_num) (by norm_num)).1
  · exact ((newton_unconditional_first_step (fun _ : ℚ => 0) (fun _ => 1) 5
      (1/100000) 0).2.1 (by norm_num) (by norm_num)).2
  · exact ((newton_unconditional_first_step (fun x : ℚ => x) (fun _ => 1) 1
      (1/100000) 20).2.2 (by norm_num)).mpr (by norm_num)

/-- Claim C9: if `|f(x_0)| ≤ eps` already holds on entry, `bisection`
returns `x_0` itself, and zero loop bodies are executed — so no midpoint
is computed and no bracket sign check is performed: the loop guard is
tested before the first split. -/
theorem bisection_immediate_return (f : ℚ → ℚ) (x_0 x_1 eps : ℚ) (m : ℕ)
    (h : |f x_0| ≤ eps) :
    bisection f x_0 x_1 eps m = .ok x_0 ∧
    (bisectionI f x_0 x_1 eps m).2 = 0 := by
  constructor
  · exact bisectLoop_stop f eps x_0 x_1 x_0 (m + 1) (not_lt.mpr h)
  · unfold bisectionI bisectLoopI
    simp [not_lt.mpr h]

theorem bisection_immediate_return_witness :
    bisection (fun x : ℚ => x) 0 1 (1/100000) 20 = .ok 0 ∧
    (bisectionI (fun x : ℚ => x) 0 1 (1/100000) 20).2 = 0 :=
  bisection_immediate_return (fun x : ℚ => x) 0 1 (1/100000) 20
    (by norm_num)

/-- Claim C10: both solvers are total — modelled as total functions into
`Except`, every call yields a return value or a raised exception — and
the number of executed loop bodies is bounded: the instrumented runs
compute the same result as the plain solvers, and their body counters
never exceed `max_its + 2`. -/
theorem solver_iteration_bound (f df : ℚ → ℚ) (x_0 x_1 eps : ℚ) (m : ℕ) :
    (newton_raphsonI f df x_0 eps m).1 = newton_raphson f df x_0 eps m ∧
    (newton_raphsonI f df x_0 eps m).2.2 ≤ m + 2 ∧
    (bisectionI f x_0 x_1 eps m).1 = bisection f x_0 x_1 eps m ∧
    (bisectionI f x_0 x_1 eps m).2 ≤ m + 2 := by
  refine ⟨?_, ?_, ?_, ?_⟩
  · unfold newton_raphsonI newton_raphson
    cases hs : newtonStep f df x_0 <;> simp [hs, newtonLoopI_fst]
  · unfold newton_raphsonI
    cases hs : newtonStep f df x_0 with
    | error e => simp [hs]
    | ok v =>
      have hle := newtonLoopI_le f df eps m x_0 v
      simp only [hs]
      show (newtonLoopI f df eps x_0 v m).2 ≤ m + 2
      omega
  · unfold bisectionI bisection
    exact bisectLoopI_fst f eps (m + 1) x_0 x_1 x_0
  · unfold bisectionI
    have := bisectLoopI_le f eps (m + 1) x_0 x_1 x_0
    omega
